import Mathlib

/-!
# Verification of the ITCH trade parser (`src/parser_windows.py`)

Shallow embedding of the legacy ITCH 5.0 parser script in Lean 4 and proofs
about its behaviour.  Bytes are modelled as `Nat` (values `0..255`), byte
strings as `List Nat`, Python exceptions as an `Except` error type, and the
floating-point prices as exact rationals (`ℚ`).  The mutable `Parser` object
state (`self.data`, `self.currentHour`, the file cursor) is threaded
explicitly.
-/

namespace ITCH

/-- Python exceptions that can escape the script's code paths.
`structError` embeds `struct.error` (raised by `struct.unpack` when the
buffer length does not match the format's 43 bytes); `attributeError`
embeds `AttributeError` (raised by attribute lookup on a missing method). -/
inductive PyErr where
  | structError
  | attributeError
deriving DecidableEq, Repr

/-- Big-endian unsigned integer value of a byte string
(embeds `struct.unpack` of the fixed-width unsigned fields `>Q`, `>I`,
and the zero-extended 6-byte timestamp). -/
def beNat (l : List Nat) : Nat := l.foldl (fun a b => 256 * a + b) 0

/-- ASCII whitespace bytes removed by Python's `bytes.strip()`:
tab, newline, vertical tab, form feed, carriage return, space. -/
def isSpaceByte (b : Nat) : Bool :=
  b = 32 || b = 9 || b = 10 || b = 11 || b = 12 || b = 13

/-- Embeds `bytes.strip()`: drop ASCII whitespace from both ends. -/
def bstrip (l : List Nat) : List Nat :=
  ((l.dropWhile isSpaceByte).reverse.dropWhile isSpaceByte).reverse

/-- Is `b` a UTF-8 continuation byte (`0x80..0xBF`)? -/
def isCont (b : Nat) : Bool := 128 ≤ b && b ≤ 191

/-- UTF-8 validity of a byte string, as checked by Python's
`bytes.decode("utf-8")` (which raises `UnicodeDecodeError` exactly when
this returns `false`): rejects stray continuation bytes, overlong
encodings, surrogates and code points above `U+10FFFF`. -/
def utf8Valid : List Nat → Bool
  | [] => true
  | b :: rest =>
    if b ≤ 127 then utf8Valid rest
    else if 194 ≤ b && b ≤ 223 then
      match rest with
      | c1 :: r => isCont c1 && utf8Valid r
      | [] => false
    else if b = 224 then
      match rest with
      | c1 :: c2 :: r => (160 ≤ c1 && c1 ≤ 191) && isCont c2 && utf8Valid r
      | _ => false
    else if (225 ≤ b && b ≤ 236) || b = 238 || b = 239 then
      match rest with
      | c1 :: c2 :: r => isCont c1 && isCont c2 && utf8Valid r
      | _ => false
    else if b = 237 then
      match rest with
      | c1 :: c2 :: r => (128 ≤ c1 && c1 ≤ 159) && isCont c2 && utf8Valid r
      | _ => false
    else if b = 240 then
      match rest with
      | c1 :: c2 :: c3 :: r =>
          (144 ≤ c1 && c1 ≤ 191) && isCont c2 && isCont c3 && utf8Valid r
      | _ => false
    else if 241 ≤ b && b ≤ 243 then
      match rest with
      | c1 :: c2 :: c3 :: r => isCont c1 && isCont c2 && isCont c3 && utf8Valid r
      | _ => false
    else if b = 244 then
      match rest with
      | c1 :: c2 :: c3 :: r =>
          (128 ≤ c1 && c1 ≤ 143) && isCont c2 && isCont c3 && utf8Valid r
      | _ => false
    else false

/-- The sentinel instrument name `"N/A"` (as its character bytes) assigned by
`parse` when the symbol field is not valid UTF-8. -/
def sentinel : List Nat := [78, 47, 65]

/-- One row of `self.data`: the list `[stock, shares, price]` appended by
`process_trade`.  The instrument is represented by its (stripped) UTF-8
byte string — equality of valid UTF-8 byte strings coincides with equality
of the decoded Python strings, and the sentinel `"N/A"` is literally the
bytes `[78, 47, 65]`, exactly as in Python where a genuine symbol `N/A`
would collide with the sentinel. -/
structure TradeRow where
  stock : List Nat
  shares : Nat
  price : ℚ
deriving DecidableEq, Repr

/-- Embeds `Parser.parse`: `struct.unpack('>4s6sQcI8sIQ', msg)` on a 43-byte
body, timestamp zero-extended from the 6 bytes at offset 4, shares the
4-byte big-endian integer at offset 19, symbol the stripped 8 bytes at
offset 23 (sentinel `"N/A"` on a `UnicodeDecodeError`), price the 4-byte
big-endian integer at offset 31 scaled by `1/10000`.  `struct.unpack`
raises `struct.error` when the buffer is not exactly 43 bytes. -/
def parse (msg : List Nat) : Except PyErr (Nat × TradeRow) :=
  if msg.length = 43 then
    let timestamp := beNat ((msg.drop 4).take 6)
    let symBytes := bstrip ((msg.drop 23).take 8)
    let stock := if utf8Valid symBytes then symBytes else sentinel
    let shares := beNat ((msg.drop 19).take 4)
    let price : ℚ := (beNat ((msg.drop 31).take 4) : ℚ) / 10000
    .ok (timestamp, ⟨stock, shares, price⟩)
  else .error .structError

/-- Embeds `Parser.convert_time`:
`int(datetime.datetime.fromtimestamp(timestamp / 1e9).strftime('%H'))`.
`fromtimestamp` interprets `timestamp / 1e9` as seconds since the Unix
epoch **in the local timezone**, so the resulting hour depends on the
environment's UTC offset; `tz` is that offset in seconds at the given
instant.  The float division `timestamp / 1e9` is idealised as exact and
floored to whole seconds (sub-second digits never affect `'%H'` except at
`fromtimestamp`'s microsecond-rounding edge, which is not modelled). -/
def convert_time (tz : Int) (timestamp : Nat) : Nat :=
  (((timestamp : Int) / 1000000000 + tz) % 86400 / 3600).toNat

/-- Modelled from the spec: `hourOfDay(timestamp)`, "integer division of
nanoseconds-since-midnight by nanoseconds-per-hour". -/
def hourOfDay (timestamp : Nat) : Nat := timestamp / 3600000000000

/-- Round a rational to the nearest integer, ties to even — the rounding
used by `pandas`/`numpy` `.round` (IEEE round-half-even, idealised over
exact rationals). -/
def roundHalfEven (q : ℚ) : ℤ :=
  let f := ⌊q⌋
  if q - f < 1/2 then f
  else if q - f > 1/2 then f + 1
  else if 2 ∣ f then f else f + 1

/-- Embeds `.round(2)`: round to two decimal digits (half to even). -/
def round2 (q : ℚ) : ℚ := (roundHalfEven (q * 100) : ℚ) / 100

/-- Lexicographic byte-string order used by `pandas.groupby`'s sorted group
keys (Python string comparison; on valid UTF-8, code-point order equals
byte order). -/
def bytesLe : List Nat → List Nat → Bool
  | [], _ => true
  | _ :: _, [] => false
  | a :: as, b :: bs => a < b || (a = b && bytesLe as bs)

/-- `bytesLe` as a binary relation, for use with `List.insertionSort`. -/
def bytesLE (a b : List Nat) : Prop := bytesLe a b = true

instance : DecidableRel bytesLE :=
  fun a b => inferInstanceAs (Decidable (bytesLe a b = true))

/-- The distinct stock symbols of a bucket, in ascending order — the group
keys produced by `panda.groupby(panda["Stock"])` (which sorts keys). -/
def sortedKeys (data : List TradeRow) : List (List Nat) :=
  List.insertionSort bytesLE (data.map (·.stock)).dedup

/-- One hour's output table, as printed/written by `process_trade`:
for each stock (ascending) its VWAP value.  The VWAP is
`round((Σ shares·price) / (Σ shares), 2)`; the value is `none` when the
group's total shares is zero, embedding the non-finite float (NaN/inf)
that the unguarded `panda["Total"] / panda["Shares"]` produces there. -/
def vwapTable (data : List TradeRow) : List (List Nat × Option ℚ) :=
  (sortedKeys data).map fun s =>
    let g := data.filter (fun r => r.stock = s)
    let sh : ℚ := (g.map (fun r => (r.shares : ℚ))).sum
    let tot : ℚ := (g.map (fun r => (r.shares : ℚ) * r.price)).sum
    (s, if sh = 0 then none else some (round2 (tot / sh)))

/-- The mutable aggregation state of the `Parser` object:
`self.data` (the accumulated trade rows of the open bucket) and
`self.currentHour` (`None` before the first trade). -/
structure PState where
  data : List TradeRow
  currentHour : Option Nat
deriving DecidableEq, Repr

/-- An emitted hourly result: the hour label and the per-stock VWAP table
(what `process_trade` writes to `<hour>00.txt` and prints). -/
abbrev Output := Nat × List (List Nat × Option ℚ)

/-- Embeds `Parser.process_trade`: parse the body, derive the hour; on the
first trade set `currentHour`; when the derived hour is
`(currentHour + 1) % 24` emit the VWAP table of the accumulated rows
labelled with the old hour and reset; finally append the parsed row. -/
def process_trade (tz : Int) (st : PState) (msg : List Nat) :
    Except PyErr (PState × Option Output) :=
  match parse msg with
  | .error e => .error e
  | .ok (timestamp, row) =>
    let hour := convert_time tz timestamp
    match st.currentHour with
    | none => .ok (⟨st.data ++ [row], some hour⟩, none)
    | some cur =>
      if (cur + 1) % 24 = hour then
        .ok (⟨[row], some hour⟩, some (cur, vwapTable st.data))
      else
        .ok (⟨st.data ++ [row], some cur⟩, none)

/-- Feed a list of message bodies through `process_trade` in order,
collecting the emitted hourly outputs. -/
def runTrades (tz : Int) (st : PState) (outs : List Output) :
    List (List Nat) → Except PyErr (PState × List Output)
  | [] => .ok (st, outs)
  | msg :: rest =>
    match process_trade tz st msg with
    | .error e => .error e
    | .ok (st', out) => runTrades tz st' (outs ++ out.toList) rest

/-- The `NASDAQ_MSG_SIZES` table from `__main__`: message-type byte mapped
to body length. -/
def NASDAQ_MSG_SIZES : List (Nat × Nat) :=
  [(83, 11), (82, 38), (72, 24), (89, 19), (76, 25), (86, 34), (87, 11),
   (75, 27), (65, 35), (70, 39), (69, 30), (67, 35), (88, 22), (68, 18),
   (85, 34), (80, 43), (81, 39), (66, 18), (73, 49), (78, 19)]

/-- Dictionary lookup `self.msg_size_table[msg_type]`; `none` embeds the
`KeyError` case. -/
def lookupSize (t : Nat) : Option Nat :=
  (NASDAQ_MSG_SIZES.find? (fun p => p.1 = t)).map (·.2)

/-- Embeds `Parser.check_for_trade_msg` on tag byte `t` with `rest` the
bytes remaining after the tag.  A `KeyError` from the size lookup is
swallowed (`except KeyError: pass`) before any body byte is read; a known
tag reads up to its declared length (`file.read(n)` returns fewer bytes at
end of stream), and the body is processed only for tag `b'P'` (byte 80). -/
def check_for_trade_msg (tz : Int) (st : PState) (rest : List Nat) (t : Nat) :
    Except PyErr (PState × List Nat × Option Output) :=
  match lookupSize t with
  | none => .ok (st, rest, none)
  | some n =>
    let msg := rest.take n
    let rest' := rest.drop n
    if t = 80 then
      match process_trade tz st msg with
      | .error e => .error e
      | .ok (st', out) => .ok (st', rest', out)
    else .ok (st, rest', none)

/-- Embeds the driver loop of `__main__`: read one tag byte
(`read_binary_msg_type`), stop cleanly when the stream is exhausted
(`read(1)` returns `b''`, which is falsy), otherwise run the body of
`check_for_trade_msg` (inlined here so that the recursion is easy to
unfold; `runLoop_cons` below ties it to the factored-out method) and
continue. -/
def runLoop (tz : Int) (st : PState) (outs : List Output) :
    List Nat → Except PyErr (PState × List Output)
  | [] => .ok (st, outs)
  | t :: rest =>
    match lookupSize t with
    | none => runLoop tz st outs rest
    | some n =>
      if t = 80 then
        match process_trade tz st (rest.take n) with
        | .error e => .error e
        | .ok (st', out) => runLoop tz st' (outs ++ out.toList) (rest.drop n)
      else runLoop tz st outs (rest.drop n)
termination_by bytes => bytes.length
decreasing_by
  · simp only [List.length_cons]
    omega
  · simp only [List.length_cons, List.length_drop]
    omega
  · simp only [List.length_cons, List.length_drop]
    omega

/-- The method names defined on the `Parser` class. -/
def parserMethods : List String :=
  ["__init__", "read_binary_msg_type", "read_binary", "close_binary",
   "check_for_trade_msg", "convert_time", "parse", "process_trade"]

/-- Embeds Python attribute lookup `Parser.<name>`: raises
`AttributeError` when the class defines no such method. -/
def getattrParser (name : String) : Except PyErr Unit :=
  if name ∈ parserMethods then .ok () else .error .attributeError

/-- Embeds `__main__` end to end: run the read loop over the decompressed
bytes, then `Parser.close_binary()` (closes the file; no aggregator
effect), then `Parser.save_excel()`. -/
def runMain (tz : Int) (bytes : List Nat) :
    Except PyErr (PState × List Output) := do
  let res ← runLoop tz ⟨[], none⟩ [] bytes
  let _ ← getattrParser "close_binary"
  let _ ← getattrParser "save_excel"
  pure res

/-! ## Concrete test fixtures -/

/-- Test fixture: a big-endian byte string of width `w` for value `v`
(least significant byte last). -/
def beBytes (w : Nat) (v : Nat) : List Nat :=
  (List.range w).reverse.map (fun i => v / 256 ^ i % 256)

/-- Test fixture: a 43-byte `P` (trade) message body with the given
nanosecond timestamp, share count, raw fixed-point price and symbol bytes
(padded with spaces to 8 bytes). -/
def mkTradeBody (ts shares priceRaw : Nat) (sym : List Nat) : List Nat :=
  beBytes 4 0 ++ beBytes 6 ts ++ beBytes 8 0 ++ beBytes 1 0 ++
    beBytes 4 shares ++ (sym ++ List.replicate (8 - sym.length) 32) ++
    beBytes 4 priceRaw ++ beBytes 8 0

/-- 09:00:00, in nanoseconds since midnight. -/
def tsH9a : Nat := 32400000000000

/-- 09:01:40, in nanoseconds since midnight. -/
def tsH9b : Nat := 32500000000000

/-- 10:00:00, in nanoseconds since midnight. -/
def tsH10 : Nat := 36000000000000

/-- 00:30:00, in nanoseconds since midnight. -/
def tsH0 : Nat := 1800000000000

/-- The bytes of `"AAPL"`. -/
def aapl : List Nat := [65, 65, 80, 76]

/-- The bytes of `"MSFT"`. -/
def msft : List Nat := [77, 83, 70, 84]

/-- An 8-byte symbol field that is not valid UTF-8. -/
def badsym : List Nat := [255, 0, 0, 0, 0, 0, 0, 0]

def bodyA : List Nat := mkTradeBody tsH9a 100 100000 aapl

def bodyB : List Nat := mkTradeBody tsH9b 200 110000 aapl

def bodyC : List Nat := mkTradeBody tsH10 50 120000 msft

def bodyM : List Nat := mkTradeBody tsH0 50 120000 msft

def bodyBad : List Nat := mkTradeBody tsH9a 10 50000 badsym

/-! ## Helper lemmas -/

theorem bytesLe_total : ∀ a b : List Nat, bytesLe a b = true ∨ bytesLe b a = true
  | [], _ => .inl rfl
  | _ :: _, [] => .inr rfl
  | a :: as, b :: bs => by
    rcases Nat.lt_trichotomy a b with h | h | h
    · left; simp [bytesLe, h]
    · subst h
      rcases bytesLe_total as bs with ih | ih
      · left; simp [bytesLe, ih]
      · right; simp [bytesLe, ih]
    · right; simp [bytesLe, h]

theorem bytesLe_trans : ∀ a b c : List Nat,
    bytesLe a b = true → bytesLe b c = true → bytesLe a c = true
  | [], _, _, _, _ => rfl
  | _ :: _, [], _, h, _ => by cases h
  | _ :: _, _ :: _, [], _, h => by cases h
  | a :: as, b :: bs, c :: cs, hab, hbc => by
    simp only [bytesLe, Bool.or_eq_true, Bool.and_eq_true,
      decide_eq_true_eq] at hab hbc ⊢
    rcases hab with h1 | ⟨h1, h1'⟩ <;> rcases hbc with h2 | ⟨h2, h2'⟩
    · exact .inl (h1.trans h2)
    · exact .inl (h2 ▸ h1)
    · exact .inl (h1 ▸ h2)
    · exact .inr ⟨h1.trans h2, bytesLe_trans as bs cs h1' h2'⟩

theorem bytesLe_antisymm : ∀ a b : List Nat,
    bytesLe a b = true → bytesLe b a = true → a = b
  | [], [], _, _ => rfl
  | [], _ :: _, _, h => by cases h
  | _ :: _, [], h, _ => by cases h
  | a :: as, b :: bs, hab, hba => by
    simp only [bytesLe, Bool.or_eq_true, Bool.and_eq_true,
      decide_eq_true_eq] at hab hba
    rcases hab with h1 | ⟨h1, h1'⟩ <;> rcases hba with h2 | ⟨h2, h2'⟩
    · exact absurd (h1.trans h2) (Nat.lt_irrefl a)
    · exact absurd h1 (h2 ▸ Nat.lt_irrefl a)
    · exact absurd h2 (h1 ▸ Nat.lt_irrefl a)
    · exact h1 ▸ congrArg (a :: ·) (bytesLe_antisymm as bs h1' h2')

instance : IsTotal (List Nat) bytesLE := ⟨bytesLe_total⟩

instance : IsTrans (List Nat) bytesLE := ⟨bytesLe_trans⟩

instance : IsAntisymm (List Nat) bytesLE := ⟨bytesLe_antisymm⟩

/-- Coherence of `runLoop` with the factored-out `check_for_trade_msg`
method: one loop iteration is exactly one call of the method followed by
the continuation of the loop. -/
theorem runLoop_cons (tz : Int) (st : PState) (outs : List Output)
    (t : Nat) (rest : List Nat) :
    runLoop tz st outs (t :: rest) =
      match check_for_trade_msg tz st rest t with
      | .error e => .error e
      | .ok (st', rest', out) => runLoop tz st' (outs ++ out.toList) rest' := by
  rw [runLoop, check_for_trade_msg]
  rcases lookupSize t with _ | n
  · simp
  · simp only
    by_cases ht : t = 80 <;> simp only [ht, reduceIte]
    · rcases process_trade tz st (rest.take n) with e | ⟨st', out⟩ <;> simp
    · simp

theorem round2_up (q : ℚ) (f : ℤ) (hf : ⌊q * 100⌋ = f) (h : 1/2 < q * 100 - f) :
    round2 q = (f + 1) / 100 := by
  rw [round2, roundHalfEven, hf]
  rw [if_neg (by push_cast; linarith), if_pos (by push_cast; linarith)]
  push_cast
  ring

theorem parse_bodyA : parse bodyA = .ok (tsH9a, ⟨aapl, 100, 10⟩) := by
  simp only [parse,
    show bodyA.length = 43 from by decide,
    show beNat ((bodyA.drop 4).take 6) = tsH9a from by decide,
    show bstrip ((bodyA.drop 23).take 8) = aapl from by decide,
    show utf8Valid aapl = true from by decide,
    show beNat ((bodyA.drop 19).take 4) = 100 from by decide,
    show beNat ((bodyA.drop 31).take 4) = 100000 from by decide,
    if_true]
  norm_num

theorem parse_bodyB : parse bodyB = .ok (tsH9b, ⟨aapl, 200, 11⟩) := by
  simp only [parse,
    show bodyB.length = 43 from by decide,
    show beNat ((bodyB.drop 4).take 6) = tsH9b from by decide,
    show bstrip ((bodyB.drop 23).take 8) = aapl from by decide,
    show utf8Valid aapl = true from by decide,
    show beNat ((bodyB.drop 19).take 4) = 200 from by decide,
    show beNat ((bodyB.drop 31).take 4) = 110000 from by decide,
    if_true]
  norm_num

theorem parse_bodyC : parse bodyC = .ok (tsH10, ⟨msft, 50, 12⟩) := by
  simp only [parse,
    show bodyC.length = 43 from by decide,
    show beNat ((bodyC.drop 4).take 6) = tsH10 from by decide,
    show bstrip ((bodyC.drop 23).take 8) = msft from by decide,
    show utf8Valid msft = true from by decide,
    show beNat ((bodyC.drop 19).take 4) = 50 from by decide,
    show beNat ((bodyC.drop 31).take 4) = 120000 from by decide,
    if_true]
  norm_num

theorem parse_bodyM : parse bodyM = .ok (tsH0, ⟨msft, 50, 12⟩) := by
  simp only [parse,
    show bodyM.length = 43 from by decide,
    show beNat ((bodyM.drop 4).take 6) = tsH0 from by decide,
    show bstrip ((bodyM.drop 23).take 8) = msft from by decide,
    show utf8Valid msft = true from by decide,
    show beNat ((bodyM.drop 19).take 4) = 50 from by decide,
    show beNat ((bodyM.drop 31).take 4) = 120000 from by decide,
    if_true]
  norm_num

theorem vwap_ab :
    vwapTable [⟨aapl, 100, 10⟩, ⟨aapl, 200, 11⟩] = [(aapl, some (1067/100))] := by
  rw [vwapTable]
  rw [show sortedKeys [⟨aapl, 100, 10⟩, ⟨aapl, 200, 11⟩] = [aapl] from by decide]
  simp only [List.map, List.filter, aapl, decide_True, List.sum_cons, List.sum_nil]
  rw [if_neg (by norm_num)]
  rw [show (((100:Nat):ℚ) * 10 + (((200:Nat):ℚ) * 11 + 0)) /
        (((100:Nat):ℚ) + (((200:Nat):ℚ) + 0)) = 32/3 from by push_cast; norm_num]
  rw [round2_up (32/3) 1066 (by rw [Int.floor_eq_iff] <;> norm_num) (by norm_num)]
  norm_num

theorem mem_sortedKeys_of_mem_stock {data : List TradeRow} {s : List Nat}
    (h : s ∈ data.map (·.stock)) : s ∈ sortedKeys data := by
  rw [sortedKeys, (List.perm_insertionSort bytesLE _).mem_iff, List.mem_dedup]
  exact h

theorem convert_time_lt_24 (tz : Int) (ts : Nat) : convert_time tz ts < 24 := by
  rw [convert_time]
  omega

theorem runTrades_same_hour (tz : Int) (H : Nat) (hH : H < 24) :
    ∀ (msgs : List (List Nat)),
      (∀ m ∈ msgs, ∃ ts row, parse m = .ok (ts, row) ∧ convert_time tz ts = H) →
      ∀ (data : List TradeRow) (outs : List Output),
        ∃ rows, runTrades tz ⟨data, some H⟩ outs msgs = .ok (⟨data ++ rows, some H⟩, outs)
  | [], _, data, outs => ⟨[], by simp [runTrades]⟩
  | m :: rest, hall, data, outs => by
    obtain ⟨ts, row, hp, hh⟩ := hall m (List.mem_cons_self m rest)
    have hne : ¬ ((H + 1) % 24 = H) := by omega
    obtain ⟨rows, hrec⟩ := runTrades_same_hour tz H hH rest
      (fun m' hm' => hall m' (List.mem_cons_of_mem m hm')) (data ++ [row]) outs
    refine ⟨row :: rows, ?_⟩
    rw [runTrades, process_trade, hp]
    simp only [hh, hne, if_false, reduceIte, Option.toList, List.append_nil]
    rw [show data ++ row :: rows = (data ++ [row]) ++ rows by simp]
    exact hrec

theorem process_trade_ok (tz : Int) (st : PState) (msg : List Nat)
    (ts : Nat) (row : TradeRow) (hp : parse msg = .ok (ts, row)) :
    ∃ st' out, process_trade tz st msg = .ok (st', out) ∧
      st'.data.getLast? = some row := by
  rw [process_trade, hp]
  rcases st with ⟨data, _ | cur⟩
  · exact ⟨_, none, rfl, by simp⟩
  · by_cases hb : (cur + 1) % 24 = convert_time tz ts
    · exact ⟨⟨[row], some (convert_time tz ts)⟩, some (cur, vwapTable data),
        by simp only [reduceIte, hb], by simp⟩
    · exact ⟨⟨data ++ [row], some cur⟩, none, by simp only [reduceIte, hb], by simp⟩

theorem sortedKeys_perm_eq {l1 l2 : List TradeRow} (hp : l1.Perm l2) :
    sortedKeys l1 = sortedKeys l2 := by
  apply List.eq_of_perm_of_sorted (r := bytesLE)
  · exact ((List.perm_insertionSort _ _).trans ((hp.map _).dedup)).trans
      (List.perm_insertionSort _ _).symm
  · exact List.sorted_insertionSort _ _
  · exact List.sorted_insertionSort _ _

theorem vwapTable_perm {l1 l2 : List TradeRow} (hp : l1.Perm l2) :
    vwapTable l1 = vwapTable l2 := by
  rw [vwapTable, vwapTable, sortedKeys_perm_eq hp]
  refine List.map_congr_left (fun s _ => ?_)
  have h1 : ((l1.filter (fun r => r.stock = s)).map (fun r => (r.shares : ℚ))).sum
      = ((l2.filter (fun r => r.stock = s)).map (fun r => (r.shares : ℚ))).sum :=
    ((hp.filter _).map _).sum_eq
  have h2 : ((l1.filter (fun r => r.stock = s)).map (fun r => (r.shares : ℚ) * r.price)).sum
      = ((l2.filter (fun r => r.stock = s)).map (fun r => (r.shares : ℚ) * r.price)).sum :=
    ((hp.filter _).map _).sum_eq
  simp only [h1, h2]

/-! ## Claims -/

/-- C1 (counterexample): the claim "an unknown tag signals
`UnknownMessageTypeError` and zero further messages are framed" is false
for this code: on the stream consisting of the unknown tag byte `0x5A`
(`'Z'`) followed by a complete `P` trade message, the run terminates
without error and the trade message after the unknown tag *is* framed and
accumulated into the bucket. -/
theorem unknown_tag_stop_cex :
    runLoop 0 ⟨[], none⟩ [] (90 :: 80 :: bodyA) =
      .ok (⟨[⟨aapl, 100, 10⟩], some 9⟩, []) := by
  rw [runLoop]
  simp only [show lookupSize 90 = none from by decide]
  rw [runLoop]
  simp only [show lookupSize 80 = some 43 from by decide, reduceIte,
    show bodyA.take 43 = bodyA from by decide,
    show bodyA.drop 43 = ([] : List Nat) from by decide]
  rw [process_trade, parse_bodyA]
  simp only [show convert_time 0 tsH9a = 9 from by decide]
  rw [runLoop]
  simp

/-- C1 (amended): when the driver reads a type tag absent from the message
length table, the `KeyError` from the lookup is silently swallowed
(`except KeyError: pass`), no body bytes are consumed for that tag, and
framing continues with the remaining bytes as a fresh stream — so
messages after an unknown tag are still framed. -/
theorem unknown_tag_silently_skipped (tz : Int) (st : PState)
    (outs : List Output) (rest : List Nat) (t : Nat)
    (h : lookupSize t = none) :
    runLoop tz st outs (t :: rest) = runLoop tz st outs rest := by
  rw [runLoop]
  simp only [h]

/-- Witness for `unknown_tag_silently_skipped` at tag `0x5A` followed by a
complete trade message. -/
theorem unknown_tag_silently_skipped_witness :
    runLoop 0 ⟨[], none⟩ [] (90 :: 80 :: bodyA) =
      runLoop 0 ⟨[], none⟩ [] (80 :: bodyA) :=
  unknown_tag_silently_skipped 0 ⟨[], none⟩ [] (80 :: bodyA) 90 (by decide)

/-- C2: for every bucket and every instrument occurring in it with nonzero
total shares, the emitted table contains the pair mapping that instrument
to `round(sum(shares*price) / sum(shares), 2)`; and in the concrete
scenario — two hour-9 AAPL trades `(shares=100, price=10.0000)` and
`(shares=200, price=11.0000)` followed by an hour-10 record — the run
emits exactly the hour-9 result `[("AAPL", 10.67)]`. -/
theorem vwap_formula_and_scenario :
    (∀ (data : List TradeRow) (s : List Nat), s ∈ data.map (·.stock) →
      ((data.filter (fun r => r.stock = s)).map (fun r => (r.shares : ℚ))).sum ≠ 0 →
      (s, some (round2
        (((data.filter (fun r => r.stock = s)).map (fun r => (r.shares : ℚ) * r.price)).sum /
          ((data.filter (fun r => r.stock = s)).map (fun r => (r.shares : ℚ))).sum)))
        ∈ vwapTable data) ∧
    runTrades 0 ⟨[], none⟩ [] [bodyA, bodyB, bodyC] =
      .ok (⟨[⟨msft, 50, 12⟩], some 10⟩, [(9, [(aapl, some (1067/100))])]) := by
  constructor
  · intro data s hs hsh
    have hk := mem_sortedKeys_of_mem_stock hs
    rw [vwapTable, List.mem_map]
    exact ⟨s, hk, by simp only [if_neg hsh]⟩
  · rw [runTrades, process_trade, parse_bodyA]
    simp only [show convert_time 0 tsH9a = 9 from by decide]
    rw [runTrades, process_trade, parse_bodyB]
    simp only [show convert_time 0 tsH9b = 9 from by decide]
    norm_num
    rw [runTrades, process_trade, parse_bodyC]
    simp only [show convert_time 0 tsH10 = 10 from by decide]
    norm_num
    rw [runTrades]
    simp [vwap_ab]

/-- Witness for `vwap_formula_and_scenario` on the two-trade AAPL bucket. -/
theorem vwap_formula_and_scenario_witness :
    (aapl, some (round2
      (((([⟨aapl, 100, 10⟩, ⟨aapl, 200, 11⟩] : List TradeRow).filter
          (fun r => r.stock = aapl)).map (fun r => (r.shares : ℚ) * r.price)).sum /
        ((([⟨aapl, 100, 10⟩, ⟨aapl, 200, 11⟩] : List TradeRow).filter
          (fun r => r.stock = aapl)).map (fun r => (r.shares : ℚ))).sum)))
      ∈ vwapTable [⟨aapl, 100, 10⟩, ⟨aapl, 200, 11⟩] :=
  vwap_formula_and_scenario.1 [⟨aapl, 100, 10⟩, ⟨aapl, 200, 11⟩] aapl (by decide)
    (by
      rw [show (([⟨aapl, 100, 10⟩, ⟨aapl, 200, 11⟩] : List TradeRow).filter
          (fun r => r.stock = aapl)) = [⟨aapl, 100, 10⟩, ⟨aapl, 200, 11⟩] from by decide]
      simp only [List.map, List.sum_cons, List.sum_nil]
      norm_num)

/-- C3 (code bug): the hour is *not* the pure function
`hourOfDay(ts) = ts / nanoseconds-per-hour` of the raw timestamp:
`convert_time` goes through `datetime.fromtimestamp`, which applies the
environment's local UTC offset.  At the failing input
`ts = 34200000000000` (09:30:00) with UTC offset `-18000` s (US Eastern
standard time) the code derives hour 4, while the claimed pure function
gives 9 (as the code does only under a zero offset). -/
theorem convert_time_timezone_dependent :
    convert_time (-18000) 34200000000000 = 4 ∧
    convert_time 0 34200000000000 = 9 ∧
    hourOfDay 34200000000000 = 9 ∧
    convert_time (-18000) 34200000000000 ≠ hourOfDay 34200000000000 := by
  decide

/-- C4: in state `BucketOpen(cur, data)`, a message whose derived hour is
`(cur + 1) % 24` triggers a flush: the per-instrument VWAP table over
`data` is emitted labelled with hour `cur`, and the new state is
`BucketOpen((cur + 1) % 24, [row])` holding only the triggering record.
The witness below exercises the midnight wrap (`cur = 23`, hour 0). -/
theorem flush_on_next_hour (tz : Int) (cur : Nat) (data : List TradeRow)
    (msg : List Nat) (ts : Nat) (row : TradeRow)
    (hp : parse msg = .ok (ts, row))
    (hh : convert_time tz ts = (cur + 1) % 24) :
    process_trade tz ⟨data, some cur⟩ msg =
      .ok (⟨[row], some ((cur + 1) % 24)⟩, some (cur, vwapTable data)) := by
  rw [process_trade, hp]
  simp [hh]

/-- Witness for `flush_on_next_hour`: a bucket open at hour 23 flushed by
a record with derived hour 0 (midnight wrap). -/
theorem flush_on_next_hour_witness :
    process_trade 0 ⟨[⟨aapl, 100, 10⟩, ⟨aapl, 200, 11⟩], some 23⟩ bodyM =
      .ok (⟨[⟨msft, 50, 12⟩], some 0⟩,
        some (23, vwapTable [⟨aapl, 100, 10⟩, ⟨aapl, 200, 11⟩])) :=
  flush_on_next_hour 0 23 [⟨aapl, 100, 10⟩, ⟨aapl, 200, 11⟩] bodyM tsH0
    ⟨msft, 50, 12⟩ parse_bodyM (by decide)

/-- C5: the aggregator never flushes the final open bucket at end of
stream: a nonempty message sequence whose derived hours all equal `H`
runs to completion with an open, nonempty bucket at hour `H` and an empty
list of emitted results — the last partial hour is dropped silently
(no end-of-stream flush exists in the driver either; see `runMain`). -/
theorem no_flush_at_end_of_stream (tz : Int) (H : Nat)
    (msgs : List (List Nat)) (hne : msgs ≠ [])
    (hall : ∀ m ∈ msgs, ∃ ts row, parse m = .ok (ts, row) ∧ convert_time tz ts = H) :
    ∃ data, data ≠ [] ∧
      runTrades tz ⟨[], none⟩ [] msgs = .ok (⟨data, some H⟩, []) := by
  match msgs, hne with
  | m :: rest, _ =>
    obtain ⟨ts, row, hp, hh⟩ := hall m (List.mem_cons_self m rest)
    have hH : H < 24 := hh ▸ convert_time_lt_24 tz ts
    obtain ⟨rows, hrec⟩ := runTrades_same_hour tz H hH rest
      (fun m' hm' => hall m' (List.mem_cons_of_mem m hm')) [row] []
    refine ⟨row :: rows, by simp, ?_⟩
    rw [runTrades, process_trade, hp]
    simp only [hh, Option.toList, List.append_nil, List.nil_append]
    exact hrec

/-- Witness for `no_flush_at_end_of_stream`: two hour-9 trades and then
end of stream — nothing is emitted. -/
theorem no_flush_at_end_of_stream_witness :
    ∃ data, data ≠ [] ∧
      runTrades 0 ⟨[], none⟩ [] [bodyA, bodyB] = .ok (⟨data, some 9⟩, []) :=
  no_flush_at_end_of_stream 0 9 [bodyA, bodyB] (by simp)
    (by
      intro m hm
      simp only [List.mem_cons, List.not_mem_nil, or_false] at hm
      rcases hm with rfl | rfl
      · exact ⟨tsH9a, _, parse_bodyA, by decide⟩
      · exact ⟨tsH9b, _, parse_bodyB, by decide⟩)

/-- C6 (counterexample): the VWAP computation contains *no* defensive
guard against division by zero: for a bucket whose single record has zero
shares, the unguarded `Total / Shares` divides by zero and the emitted
value for that instrument is the non-finite marker (`none`, embedding the
NaN produced by the float division), contradicting the claim that the
division is guarded. -/
theorem vwap_unguarded_division_cex :
    vwapTable [⟨aapl, 0, 10⟩] = [(aapl, none)] := by
  rw [vwapTable, show sortedKeys [⟨aapl, 0, 10⟩] = [aapl] from by decide]
  simp only [List.map, List.filter, aapl, decide_True, List.sum_cons, List.sum_nil]
  norm_num

/-- C6 (amended): there is no guard — a zero-total-shares group makes the
computation divide by zero, producing a non-finite value (see
`vwap_unguarded_division_cex`); the division is sound only because a
group with every record holding positive shares has a nonzero
denominator, in which case no entry of the emitted table is the
non-finite marker. -/
theorem vwap_no_nan_of_pos_shares (data : List TradeRow)
    (hpos : ∀ r ∈ data, 0 < r.shares) :
    none ∉ (vwapTable data).map (fun p => p.2) := by
  rw [vwapTable]
  intro hmem
  rw [List.map_map, List.mem_map] at hmem
  obtain ⟨s, hks, hs⟩ := hmem
  have hsrc : s ∈ data.map (·.stock) := by
    rw [sortedKeys] at hks
    exact List.mem_dedup.mp ((List.perm_insertionSort bytesLE _).mem_iff.mp hks)
  obtain ⟨r, hr, hrs⟩ := List.mem_map.mp hsrc
  have hall : ∀ x ∈ (data.filter (fun r => r.stock = s)).map
      (fun r => (r.shares : ℚ)), 0 < x := by
    intro x hx
    obtain ⟨r', hr', rfl⟩ := List.mem_map.mp hx
    exact_mod_cast hpos r' (List.mem_of_mem_filter hr')
  have hne : (data.filter (fun r => r.stock = s)).map
      (fun r => (r.shares : ℚ)) ≠ [] := by
    apply List.ne_nil_of_mem (a := (r.shares : ℚ))
    exact List.mem_map_of_mem _ (List.mem_filter.mpr ⟨hr, by simp [hrs]⟩)
  have hpossum := List.sum_pos _ hall hne
  simp only [Function.comp, if_neg (ne_of_gt hpossum)] at hs
  cases hs

/-- Witness for `vwap_no_nan_of_pos_shares` on a two-trade bucket with
positive share counts. -/
theorem vwap_no_nan_of_pos_shares_witness :
    none ∉ (vwapTable [⟨aapl, 100, 10⟩, ⟨aapl, 200, 11⟩]).map (fun p => p.2) :=
  vwap_no_nan_of_pos_shares [⟨aapl, 100, 10⟩, ⟨aapl, 200, 11⟩] (by decide)

/-- C7: a stream that ends mid-body of a declared-length-43 (`P`,
trade-execution) message makes the run fail with the truncation error
(`struct.error` raised by `struct.unpack` on the short buffer — the
code's realisation of `TruncatedStreamError`), and `process_trade`
returns that error without accumulating any partial trade record. -/
theorem truncated_trade_message_error (tz : Int) (st : PState)
    (outs : List Output) (body : List Nat) (h : body.length < 43) :
    runLoop tz st outs (80 :: body) = .error .structError ∧
      process_trade tz st (body.take 43) = .error .structError := by
  have hlen : ¬ ((body.take 43).length = 43) := by
    rw [List.length_take]
    omega
  have hpt : process_trade tz st (body.take 43) = .error .structError := by
    rw [process_trade, parse, if_neg hlen]
  refine ⟨?_, hpt⟩
  rw [runLoop]
  simp only [show lookupSize 80 = some 43 from by decide, reduceIte, hpt]

/-- Witness for `truncated_trade_message_error`: a `P` tag followed by
only 20 of the declared 43 body bytes. -/
theorem truncated_trade_message_error_witness :
    runLoop 0 ⟨[], none⟩ [] (80 :: List.replicate 20 0) = .error .structError ∧
      process_trade 0 ⟨[], none⟩ ((List.replicate 20 0).take 43) =
        .error .structError :=
  truncated_trade_message_error 0 ⟨[], none⟩ [] (List.replicate 20 0) (by decide)

/-- C8: a 43-byte trade body whose (stripped) 8-byte symbol field is not
valid UTF-8 decodes without raising: the instrument is the sentinel
`"N/A"`, all other fields are decoded normally, and `process_trade`
succeeds on the record, accumulating it under the sentinel (the row is
appended to the open bucket in every aggregator state). -/
theorem undecodable_symbol_sentinel (msg : List Nat)
    (hlen : msg.length = 43)
    (hbad : utf8Valid (bstrip ((msg.drop 23).take 8)) = false) :
    parse msg = .ok (beNat ((msg.drop 4).take 6),
      ⟨sentinel, beNat ((msg.drop 19).take 4),
        (beNat ((msg.drop 31).take 4) : ℚ) / 10000⟩) ∧
    ∀ (tz : Int) (st : PState), ∃ st' out,
      process_trade tz st msg = .ok (st', out) ∧
      st'.data.getLast? = some ⟨sentinel, beNat ((msg.drop 19).take 4),
        (beNat ((msg.drop 31).take 4) : ℚ) / 10000⟩ := by
  have hp : parse msg = .ok (beNat ((msg.drop 4).take 6),
      ⟨sentinel, beNat ((msg.drop 19).take 4),
        (beNat ((msg.drop 31).take 4) : ℚ) / 10000⟩) := by
    rw [parse, if_pos hlen]
    simp only [hbad, Bool.false_eq_true, if_false, reduceIte]
  exact ⟨hp, fun tz st => process_trade_ok tz st msg _ _ hp⟩

/-- Witness for `undecodable_symbol_sentinel` on a body whose symbol field
starts with the invalid byte `0xFF`. -/
theorem undecodable_symbol_sentinel_witness :
    parse bodyBad = .ok (beNat ((bodyBad.drop 4).take 6),
      ⟨sentinel, beNat ((bodyBad.drop 19).take 4),
        (beNat ((bodyBad.drop 31).take 4) : ℚ) / 10000⟩) :=
  (undecodable_symbol_sentinel bodyBad (by decide) (by decide)).1

/-- C9: reordering the trade records of a bucket does not change the
emitted VWAP table (the per-instrument sums are commutative and the group
keys are emitted in sorted order), and consequently a boundary record fed
to two permuted bucket states produces identical emitted output. -/
theorem vwap_reorder_invariant (l1 l2 : List TradeRow) (hp : l1.Perm l2) :
    vwapTable l1 = vwapTable l2 ∧
    ∀ (tz : Int) (cur : Nat) (msg : List Nat),
      Except.map (fun r => r.2) (process_trade tz ⟨l1, some cur⟩ msg) =
        Except.map (fun r => r.2) (process_trade tz ⟨l2, some cur⟩ msg) := by
  have hv := vwapTable_perm hp
  refine ⟨hv, fun tz cur msg => ?_⟩
  rw [process_trade, process_trade]
  rcases hpm : parse msg with e | ⟨ts, row⟩
  · rfl
  · simp only
    by_cases hb : (cur + 1) % 24 = convert_time tz ts
    · simp [hb, hv]
    · simp [hb, Except.map]

/-- Witness for `vwap_reorder_invariant`: swapping the two AAPL trades of
an hour leaves the table unchanged. -/
theorem vwap_reorder_invariant_witness :
    vwapTable [⟨aapl, 100, 10⟩, ⟨aapl, 200, 11⟩] =
      vwapTable [⟨aapl, 200, 11⟩, ⟨aapl, 100, 10⟩] :=
  (vwap_reorder_invariant
    [⟨aapl, 100, 10⟩, ⟨aapl, 200, 11⟩] [⟨aapl, 200, 11⟩, ⟨aapl, 100, 10⟩]
    (List.Perm.swap (⟨aapl, 200, 11⟩ : TradeRow) ⟨aapl, 100, 10⟩ [])).1

/-- C10: after the read loop exhausts the stream, the driver closes the
byte source and then calls `Parser.save_excel()`, a method the `Parser`
class does not define — so every run whose loop completes terminates with
an `AttributeError` instead of returning cleanly. -/
theorem save_excel_attribute_error (tz : Int) (bytes : List Nat)
    (res : PState × List Output)
    (h : runLoop tz ⟨[], none⟩ [] bytes = .ok res) :
    runMain tz bytes = .error .attributeError := by
  rw [runMain]
  rw [h]
  rfl

/-- Witness for `save_excel_attribute_error` on the empty stream. -/
theorem save_excel_attribute_error_witness :
    runMain 0 [] = .error .attributeError :=
  save_excel_attribute_error 0 [] (⟨[], none⟩, []) (by rw [runLoop])

end ITCH
